import Mathlib

/-!
Shallow embedding of the gojson repository (lexer, parser, linter/formatter),
translated from the Go sources:
  - package token  (token kinds, token construction, keyword lookup)
  - package lexer  (character scanner producing tokens)
  - package parser (recursive-descent JSON parser with diagnostics)
  - package linter (formatter over the parsed value tree)

Go strings are byte strings; every input considered here is ASCII, so the
input is modelled as a `List Char` with one `Char` per byte.  Machine
integers of the Go code (`int` positions, `int64` numbers) are modelled as
`Nat`/`Int`; the positions are small and never overflow, and the `int64`
range check of `strconv.ParseInt` is modelled explicitly.

Loops and the mutual recursion of the recursive descent are modelled with an
explicit fuel argument so that every definition is structurally recursive and
kernel-computable.  Fuel is always instantiated generously (far above the
input length), and on every input evaluated below the fuel is never
exhausted, so the fuel-out branches are unreachable in all the computations
the theorems perform.
-/

namespace Gojson

/-- Character constants, written via code points so that quotes, braces and
backslashes never appear literally in the source. -/
def chNull : Char := Char.ofNat 0

def chQuote : Char := Char.ofNat 34

def chApos : Char := Char.ofNat 39

def chBackslash : Char := Char.ofNat 92

def chLBrace : Char := Char.ofNat 123

def chRBrace : Char := Char.ofNat 125

def chSpace : Char := Char.ofNat 32

def chTab : Char := Char.ofNat 9

def chNewline : Char := Char.ofNat 10

def chCR : Char := Char.ofNat 13

/-- String fragments used when assembling diagnostic messages
(single quote, double quote, braces), mirroring fmt.Sprintf formats. -/
def sq : String := chApos.toString

def dqm : String := chQuote.toString

def lb : String := chLBrace.toString

def rb : String := chRBrace.toString

/-- Wrap a string in single quotes, as the parser's '%s'-style messages do. -/
def q (s : String) : String := sq ++ s ++ sq

/-- Wrap a string in double quotes.  Go formats the offending number text
with %q; on the plain ASCII texts arising here %q adds only the quotes. -/
def dq (s : String) : String := dqm ++ s ++ dqm

/-- Token kinds, in the declaration (iota) order of package token. -/
inductive TokenType where
  | EOF
  | ILLEGAL
  | BEGIN_ARRAY
  | END_ARRAY
  | BEGIN_OBJECT
  | END_OBJECT
  | NAME_SEPARATOR
  | VALUE_SEPARATOR
  | WHITESPACE
  | STRING
  | NUMBER
  | TRUE
  | FALSE
  | NULL
deriving DecidableEq

/-- Numeric value of a TokenType: the Go constants are `iota` integers, and
expectPeek prints them with %v, which renders the integer. -/
def TokenType.code : TokenType → Nat
  | .EOF => 0
  | .ILLEGAL => 1
  | .BEGIN_ARRAY => 2
  | .END_ARRAY => 3
  | .BEGIN_OBJECT => 4
  | .END_OBJECT => 5
  | .NAME_SEPARATOR => 6
  | .VALUE_SEPARATOR => 7
  | .WHITESPACE => 8
  | .STRING => 9
  | .NUMBER => 10
  | .TRUE => 11
  | .FALSE => 12
  | .NULL => 13

/-- Token struct of package token: kind, matched text, line and column. -/
structure Token where
  type : TokenType
  value : String
  line : Nat
  column : Nat
deriving DecidableEq

/-- LookupIdent of package token: the fixed keyword set, anything else is
classified ILLEGAL. -/
def LookupIdent (s : String) : TokenType :=
  if s = "true" then .TRUE
  else if s = "false" then .FALSE
  else if s = "null" then .NULL
  else .ILLEGAL

/-- Lexer struct: input buffer, current offset, next-read offset, current
character (0 sentinel at end of input), line and column counters. -/
structure Lexer where
  input : List Char
  position : Nat
  readPosition : Nat
  ch : Char
  line : Nat
  column : Nat
deriving DecidableEq

/-- Byte lookup with the Go bounds check of readChar: past the end the
current character becomes the 0 sentinel. -/
def charAt (s : List Char) (i : Nat) : Char := (s.get? i).getD chNull

/-- readChar: advance to the next character, updating line/column.  Line is
incremented and column reset to 0 on a newline; column is incremented on
every other character (including the 0 sentinel read past the end). -/
def readChar (l : Lexer) : Lexer :=
  let c := if l.input.length ≤ l.readPosition then chNull else charAt l.input l.readPosition
  if c = chNewline then
    { l with ch := c, line := l.line + 1, column := 0,
             position := l.readPosition, readPosition := l.readPosition + 1 }
  else
    { l with ch := c, column := l.column + 1,
             position := l.readPosition, readPosition := l.readPosition + 1 }

/-- NewLexer: line starts at 1, column at 0, then the first readChar runs. -/
def lexerNew (input : String) : Lexer :=
  readChar { input := input.data, position := 0, readPosition := 0,
             ch := chNull, line := 1, column := 0 }

def isDigitC (c : Char) : Bool := 48 ≤ c.toNat && c.toNat ≤ 57

def isLetterC (c : Char) : Bool :=
  (97 ≤ c.toNat && c.toNat ≤ 122) || (65 ≤ c.toNat && c.toNat ≤ 90) || c = '_'

def isWhitespaceC (c : Char) : Bool :=
  c = chSpace || c = chTab || c = chNewline || c = chCR

/-- Characters the greedy number scanner accepts: digits, dot, signs, e/E. -/
def isNumberC (c : Char) : Bool :=
  isDigitC c || c = '.' || c = '-' || c = '+' || c = 'e' || c = 'E'

/-- skipWhitespace loop.  Each iteration advances readPosition, and past the
end of the input the current character is the (non-whitespace) 0 sentinel,
so `input.length + 2` iterations always suffice from a reachable state. -/
def skipWS : Nat → Lexer → Lexer
  | 0, l => l
  | fuel + 1, l => if isWhitespaceC l.ch then skipWS fuel (readChar l) else l

/-- readString loop: repeatedly readChar until the current character is a
double quote or the 0 sentinel (do-while shape: at least one readChar). -/
def readStringLoop : Nat → Lexer → Lexer
  | 0, l => l
  | fuel + 1, l =>
    let l2 := readChar l
    if l2.ch = chQuote || l2.ch = chNull then l2 else readStringLoop fuel l2

/-- readString: text starts one past the opening quote and ends before the
position at which the loop stopped (the closing quote or end of input). -/
def readStringL (l : Lexer) : String × Lexer :=
  let start := l.position + 1
  let l2 := readStringLoop (l.input.length + 2) l
  (String.mk ((l2.input.drop start).take (l2.position - start)), l2)

/-- readNumber loop: greedily consume digits, dot, signs, e/E. -/
def readNumberLoop : Nat → Lexer → Lexer
  | 0, l => l
  | fuel + 1, l => if isNumberC l.ch then readNumberLoop fuel (readChar l) else l

def readNumberL (l : Lexer) : String × Lexer :=
  let start := l.position
  let l2 := readNumberLoop (l.input.length + 2) l
  (String.mk ((l2.input.drop start).take (l2.position - start)), l2)

/-- readIdentifier loop: greedily consume letters and underscores. -/
def readIdentLoop : Nat → Lexer → Lexer
  | 0, l => l
  | fuel + 1, l => if isLetterC l.ch then readIdentLoop fuel (readChar l) else l

def readIdentL (l : Lexer) : String × Lexer :=
  let start := l.position
  let l2 := readIdentLoop (l.input.length + 2) l
  (String.mk ((l2.input.drop start).take (l2.position - start)), l2)

/-- NextToken.  Arguments of the Go calls are evaluated left to right, so in
the string / number / identifier branches the token's line and column are
read AFTER the matching loop has advanced the lexer: a string token carries
the position of its closing quote, and number and identifier tokens carry
the position of the first character after the matched text.  The repository
parser tests pin this behaviour (e.g. `key2` reported at the column of the
character after the scanned `key`).  Single-character tokens, EOF and the
illegal-character token carry the pre-advancement position.  The number and
identifier branches return early, without the trailing readChar. -/
def nextTokenL (l : Lexer) : Token × Lexer :=
  let l := skipWS (l.input.length + 2) l
  if l.ch = chLBrace then (⟨.BEGIN_OBJECT, l.ch.toString, l.line, l.column⟩, readChar l)
  else if l.ch = chRBrace then (⟨.END_OBJECT, l.ch.toString, l.line, l.column⟩, readChar l)
  else if l.ch = '[' then (⟨.BEGIN_ARRAY, l.ch.toString, l.line, l.column⟩, readChar l)
  else if l.ch = ']' then (⟨.END_ARRAY, l.ch.toString, l.line, l.column⟩, readChar l)
  else if l.ch = ':' then (⟨.NAME_SEPARATOR, l.ch.toString, l.line, l.column⟩, readChar l)
  else if l.ch = ',' then (⟨.VALUE_SEPARATOR, l.ch.toString, l.line, l.column⟩, readChar l)
  else if l.ch = chQuote then
    let (s, l2) := readStringL l
    (⟨.STRING, s, l2.line, l2.column⟩, readChar l2)
  else if l.ch = chNull then (⟨.EOF, "", l.line, l.column⟩, readChar l)
  else if isDigitC l.ch || l.ch = '-' then
    let (s, l2) := readNumberL l
    (⟨.NUMBER, s, l2.line, l2.column⟩, l2)
  else if isLetterC l.ch then
    let (s, l2) := readIdentL l
    (⟨LookupIdent s, s, l2.line, l2.column⟩, l2)
  else (⟨.ILLEGAL, l.ch.toString, l.line, l.column⟩, readChar l)

/-- Model of a Go interface value as stored in the parser's value tree.
`obj` and `arr` hold the members in insertion order; the Go `JsonObject` is
a `map[string]interface` whose key→value content equals the association
list while its iteration order is NOT the stored order (see the formatter
below).  `nilObj`/`nilArr` are the TYPED nil `JsonObject`/`JsonArray`
values that parseValue stores when a nested container's parse fails (a Go
interface holding a nil map is not the untyped nil), and `null` is the
untyped nil interface used for JSON null and failed numeric conversion.
A float is kept as an exact decimal `(m, k)` denoting m / 10^k, with the
pair canonical (k = 0 or m not divisible by 10); Go's float64 rounding is
the identity on every exactly-representable literal evaluated below. -/
inductive GoVal where
  | obj : List (String × GoVal) → GoVal
  | nilObj : GoVal
  | arr : List GoVal → GoVal
  | nilArr : GoVal
  | str : String → GoVal
  | int : Int → GoVal
  | float : Int × Nat → GoVal
  | bool : Bool → GoVal
  | null : GoVal

/-- Go map assignment `object[key] = value` on the insertion-ordered view:
an existing key is overwritten in place, a new key is appended. -/
def insertGo : List (String × GoVal) → String → GoVal → List (String × GoVal)
  | [], k, v => [(k, v)]
  | (k2, v2) :: rest, k, v =>
    if k2 = k then (k, v) :: rest else (k2, v2) :: insertGo rest k v

/-- Base-10 digit list to Nat. -/
def digitsToNat (ds : List Char) : Nat :=
  ds.foldl (fun a c => a * 10 + (c.toNat - 48)) 0

/-- Optional leading sign of a numeric literal. -/
def readSign : List Char → Int × List Char
  | [] => (1, [])
  | c :: rest => if c = '-' then (-1, rest) else if c = '+' then (1, rest) else (1, c :: rest)

def spanDigits (cs : List Char) : List Char × List Char :=
  (cs.takeWhile isDigitC, cs.dropWhile isDigitC)

/-- Canonicalize an exact decimal m / 10^k by cancelling factors of 10. -/
def canon10 : Int → Nat → Int × Nat
  | m, 0 => (m, 0)
  | m, k + 1 => if m % 10 = 0 then canon10 (m / 10) k else (m, k + 1)

/-- Model of strconv.ParseFloat (64-bit) on the alphabet the lexer's number
scanner can produce (digits, dot, signs, e/E): an optional sign, a mantissa
with at least one digit and at most one dot, and an optional exponent with
at least one digit; anything left over (e.g. a second dot) is a conversion
error, modelled as none.  The result is the exact decimal value; float64
rounding and the overflow-to-infinity error of ParseFloat are not modelled,
and no literal evaluated in this development exercises them. -/
def goParseFloat (s : String) : Option (Int × Nat) :=
  let (sgn, cs) := readSign s.data
  let (ip, cs) := spanDigits cs
  let (fp, cs) :=
    match cs with
    | c :: rest => if c = '.' then spanDigits rest else ([], c :: rest)
    | [] => ([], [])
  if ip.isEmpty && fp.isEmpty then none
  else
    let eres : Option (Int × List Char) :=
      match cs with
      | c :: rest =>
        if c = 'e' || c = 'E' then
          let (es, rest2) := readSign rest
          let (ed, rest3) := spanDigits rest2
          if ed.isEmpty then none else some (es * (digitsToNat ed : Int), rest3)
        else some (0, c :: rest)
      | [] => some (0, [])
    match eres with
    | none => none
    | some (expVal, rest) =>
      if rest.isEmpty then
        let mantissa : Int := sgn * ((digitsToNat ip : Int) * 10 ^ fp.length + (digitsToNat fp : Int))
        let e10 : Int := expVal - (fp.length : Int)
        if 0 ≤ e10 then some (mantissa * 10 ^ e10.toNat, 0)
        else some (canon10 mantissa (-e10).toNat)
      else none

/-- Model of strconv.ParseInt(s, 10, 64): optional sign, nonempty digits,
result within the signed 64-bit range; otherwise a conversion error. -/
def goParseInt (s : String) : Option Int :=
  let (sgn, ds) := readSign s.data
  if ds.isEmpty || !(ds.all isDigitC) then none
  else
    let n := digitsToNat ds
    if sgn = 1 then (if n ≤ 2 ^ 63 - 1 then some (n : Int) else none)
    else (if n ≤ 2 ^ 63 then some (-(n : Int)) else none)

/-- The dispatch condition of parseNumber: the number's text contains a dot
(strings.Contains) or one of e/E (strings.ContainsAny). -/
def hasFloatMarker (s : String) : Bool :=
  s.data.contains '.' || s.data.contains 'e' || s.data.contains 'E'

/-- Parser struct: its lexer, current token, one-token lookahead, and the
ordered list of diagnostics. -/
structure Parser where
  lexer : Lexer
  curToken : Token
  peekToken : Token
  errors : List String

/-- The zero value of token.Token (Go struct zero: kind 0 = EOF). -/
def zeroToken : Token := ⟨.EOF, "", 0, 0⟩

/-- nextToken of the parser: shift the lookahead and pull one token. -/
def advanceP (p : Parser) : Parser :=
  let (t, lx) := nextTokenL p.lexer
  { p with lexer := lx, curToken := p.peekToken, peekToken := t }

/-- NewParser: start from zero tokens and advance twice. -/
def parserNew (l : Lexer) : Parser :=
  advanceP (advanceP { lexer := l, curToken := zeroToken, peekToken := zeroToken, errors := [] })

def addError (p : Parser) (msg : String) : Parser :=
  { p with errors := p.errors ++ [msg] }

/-- Shared " at line %d, column %d" tail of the diagnostics. -/
def atLineCol (line col : Nat) : String :=
  " at line " ++ Nat.repr line ++ ", column " ++ Nat.repr col

def expectedObjMsg (line col : Nat) (got : String) : String :=
  "expected " ++ q lb ++ atLineCol line col ++ ", got " ++ q got

def expectedCloseObjMsg (line col : Nat) (got : String) : String :=
  "expected " ++ q rb ++ atLineCol line col ++ ", got " ++ q got

def expectedArrMsg (line col : Nat) (got : String) : String :=
  "expected " ++ q "[" ++ atLineCol line col ++ ", got " ++ q got

def noCommaMsg (line col : Nat) : String :=
  "No " ++ q "," ++ " before " ++ q rb ++ atLineCol line col

def keyMsg (line col : Nat) (got : String) : String :=
  "expected string for key" ++ atLineCol line col ++ ", got " ++ q got

def unexpectedTokenMsg (v : String) (line col : Nat) : String :=
  "unexpected token " ++ q v ++ atLineCol line col

def floatErrMsg (s : String) (line col : Nat) : String :=
  "could not parse " ++ dq s ++ " as float" ++ atLineCol line col

def intErrMsg (s : String) (line col : Nat) : String :=
  "could not parse " ++ dq s ++ " as integer" ++ atLineCol line col

def expectPeekMsg (want got : TokenType) (line col : Nat) : String :=
  "expected next token to be " ++ Nat.repr want.code ++ ", got " ++ Nat.repr got.code
    ++ " instead," ++ atLineCol line col

/-- parseObjectKey: the current token must be a STRING; the empty string
doubles as the error signal. -/
def parseObjectKeyF (p : Parser) : Parser × String :=
  if p.curToken.type ≠ .STRING then
    (addError p (keyMsg p.curToken.line p.curToken.column p.curToken.value), "")
  else (p, p.curToken.value)

/-- expectPeek: advance when the lookahead has the expected kind, else
record a diagnostic (the %v verbs print the integer token-kind codes). -/
def expectPeekF (p : Parser) (t : TokenType) : Parser × Bool :=
  if p.peekToken.type = t then (advanceP p, true)
  else (addError p (expectPeekMsg t p.peekToken.type p.curToken.line p.curToken.column), false)

/-- parseNumber: text containing a dot or e/E is converted as a 64-bit
float, anything else as a 64-bit signed integer; a conversion failure
records a diagnostic and yields the untyped nil (JSON null) value. -/
def parseNumberF (p : Parser) : Parser × GoVal :=
  let numStr := p.curToken.value
  if hasFloatMarker numStr then
    match goParseFloat numStr with
    | some v => (p, .float v)
    | none => (addError p (floatErrMsg numStr p.curToken.line p.curToken.column), .null)
  else
    match goParseInt numStr with
    | some v => (p, .int v)
    | none => (addError p (intErrMsg numStr p.curToken.line p.curToken.column), .null)

/-- Recursion mode of the combined recursive-descent function: parseValue,
parseObject, the body of parseObject's member loop, parseArray, and the
body of parseArray's element loop. -/
inductive PMode where
  | val
  | obj
  | objLoop (acc : List (String × GoVal))
  | arr
  | arrLoop (acc : List GoVal)

/-- Result of one recursive-descent call: parseValue's (interface, error)
pair, or the possibly-nil object/array of parseObject/parseArray. -/
inductive PRes where
  | v (value : GoVal) (failed : Bool)
  | o (result : Option (List (String × GoVal)))
  | a (result : Option (List GoVal))

/-- Fuel-out sentinel per mode (never reached in the evaluations below). -/
def fuelOut : PMode → PRes
  | .val => .v .null true
  | .obj => .o none
  | .objLoop _ => .o none
  | .arr => .a none
  | .arrLoop _ => .a none

/-- The recursive descent of parser.go, combined into one fuel-indexed
function so that the mutual recursion of parseValue / parseObject /
parseArray is structural.  Each equation mirrors the corresponding Go
function body; the catch-all arms on an inner match are unreachable
(parseF in mode .val always returns a .v result, etc.). -/
def parseF : Nat → PMode → Parser → Parser × PRes
  | 0, m, p => (p, fuelOut m)
  | fuel + 1, .val, p =>
    match p.curToken.type with
    | .STRING => (p, .v (.str p.curToken.value) false)
    | .NUMBER =>
      let (p2, v) := parseNumberF p
      (p2, .v v false)
    | .TRUE => (p, .v (.bool true) false)
    | .FALSE => (p, .v (.bool false) false)
    | .NULL => (p, .v .null false)
    | .BEGIN_OBJECT =>
      match parseF fuel .obj p with
      | (p2, .o (some entries)) => (p2, .v (.obj entries) false)
      | (p2, .o none) => (p2, .v .nilObj false)
      | (p2, _) => (p2, .v .nilObj false)
    | .BEGIN_ARRAY =>
      match parseF fuel .arr p with
      | (p2, .a (some elems)) => (p2, .v (.arr elems) false)
      | (p2, .a none) => (p2, .v .nilArr false)
      | (p2, _) => (p2, .v .nilArr false)
    | _ =>
      (addError p (unexpectedTokenMsg p.curToken.value p.curToken.line p.curToken.column),
       .v .null true)
  | fuel + 1, .obj, p =>
    if p.curToken.type = .BEGIN_OBJECT then
      parseF fuel (.objLoop []) (advanceP p)
    else
      (addError p (expectedObjMsg p.curToken.line p.curToken.column p.curToken.value), .o none)
  | fuel + 1, .objLoop acc, p =>
    if p.curToken.type ≠ .END_OBJECT && p.curToken.type ≠ .EOF then
      let (p, key) := parseObjectKeyF p
      if key = "" then (p, .o none)
      else
        match expectPeekF p .NAME_SEPARATOR with
        | (p, false) => (p, .o none)
        | (p, true) =>
          let p := advanceP p
          match parseF fuel .val p with
          | (p, .v _ true) => (p, .o none)
          | (p, .v value false) =>
            let acc2 := insertGo acc key value
            let p := advanceP p
            if p.curToken.type = .VALUE_SEPARATOR then
              if p.peekToken.type = .END_OBJECT then
                (addError p (noCommaMsg p.curToken.line p.curToken.column), .o none)
              else parseF fuel (.objLoop acc2) (advanceP p)
            else parseF fuel (.objLoop acc2) p
          | (p, _) => (p, .o none)
    else
      if p.curToken.type ≠ .END_OBJECT then
        (addError p (expectedCloseObjMsg p.curToken.line p.curToken.column p.curToken.value),
         .o none)
      else (p, .o (some acc))
  | fuel + 1, .arr, p =>
    if p.curToken.type = .BEGIN_ARRAY then
      parseF fuel (.arrLoop []) (advanceP p)
    else
      (addError p (expectedArrMsg p.curToken.line p.curToken.column p.curToken.value), .a none)
  | fuel + 1, .arrLoop acc, p =>
    if p.curToken.type ≠ .END_ARRAY then
      match parseF fuel .val p with
      | (p, .v _ true) => (p, .a none)
      | (p, .v value false) =>
        let acc2 := acc ++ [value]
        let p := advanceP p
        if p.curToken.type = .VALUE_SEPARATOR then
          parseF fuel (.arrLoop acc2) (advanceP p)
        else parseF fuel (.arrLoop acc2) p
      | (p, _) => (p, .a none)
    else
      if p.curToken.type ≠ .END_ARRAY then (p, .a none)
      else (p, .a (some acc))

/-- parseValue wrapper returning Go's (interface, error) pair. -/
def parseValueF (fuel : Nat) (p : Parser) : Parser × GoVal × Bool :=
  match parseF fuel .val p with
  | (p2, .v v e) => (p2, v, e)
  | (p2, _) => (p2, .null, true)

/-- parseObject wrapper: none models the nil JsonObject. -/
def parseObjectF (fuel : Nat) (p : Parser) : Parser × Option (List (String × GoVal)) :=
  match parseF fuel .obj p with
  | (p2, .o r) => (p2, r)
  | (p2, _) => (p2, none)

/-- parseArray wrapper: none models the nil JsonArray. -/
def parseArrayF (fuel : Nat) (p : Parser) : Parser × Option (List GoVal) :=
  match parseF fuel .arr p with
  | (p2, .a r) => (p2, r)
  | (p2, _) => (p2, none)

/-- Fuel amply covering the recursion depth of any parse of the input:
every recursive call of parseF strictly consumes one token or one loop
iteration, both bounded by the token count, itself bounded by the input
length plus the trailing EOF. -/
def fuelFor (input : String) : Nat := 4 * input.data.length + 64

/-- The programmatic surface: NewLexer + NewParser + Parse + Errors.
Returns the (possibly nil) top-level object and the diagnostics list. -/
def runParse (input : String) : Option (List (String × GoVal)) × List String :=
  let p := parserNew (lexerNew input)
  let (p2, r) := parseObjectF (fuelFor input) p
  (r, p2.errors)

/-- Rendering of a float value by fmt's %v verb, modelled as the plain
decimal form of the exact decimal (m, k): Go uses the shortest %g form,
which coincides with this rendering on the small values arising here (no
claim below evaluates float formatting). -/
def floatRepr : Int × Nat → String
  | (m, 0) => Int.repr m
  | (m, k + 1) =>
    let ds := Nat.toDigits 10 m.natAbs
    let ds := if ds.length ≤ k + 1 then List.replicate (k + 2 - ds.length) '0' ++ ds else ds
    (if m < 0 then "-" else "") ++ String.mk (ds.take (ds.length - (k + 1)))
      ++ "." ++ String.mk (ds.drop (ds.length - (k + 1)))

/-- Body of formatObject given the already-rendered member values in the
order the Go map range produced them: a brace, one indented
double-quoted-key line per member with commas between members, and the
closing brace on the parent's indentation. -/
def formatObjectBody (entries : List (String × String)) (indent : String) : String :=
  lb ++ "\n"
    ++ (if entries.isEmpty then ""
        else String.intercalate ",\n"
          (entries.map fun kv => indent ++ "  " ++ dq kv.1 ++ ": " ++ kv.2) ++ "\n")
    ++ indent ++ rb

/-- Body of formatArray given the already-rendered elements in order. -/
def formatArrayBody (elems : List String) (indent : String) : String :=
  "[\n"
    ++ (if elems.isEmpty then ""
        else String.intercalate ",\n" (elems.map fun e => indent ++ "  " ++ e) ++ "\n")
    ++ indent ++ "]"

/-- formatJSON of the linter package.  For an object the Go code ranges
over the map, whose iteration order the language leaves unspecified; this
function renders the members in insertion order, which is ONE of the
enumeration orders a Go run may produce (see formatGoMapEnum, which takes
the enumeration explicitly).  A typed nil object/array ranges over nothing
and still renders the two bracket lines. -/
def formatJSONF : Nat → GoVal → String → String
  | 0, _, _ => ""
  | fuel + 1, v, indent =>
    match v with
    | .obj entries =>
      formatObjectBody (entries.map fun kv => (kv.1, formatJSONF fuel kv.2 (indent ++ "  "))) indent
    | .nilObj => formatObjectBody [] indent
    | .arr elems =>
      formatArrayBody (elems.map fun e => formatJSONF fuel e (indent ++ "  ")) indent
    | .nilArr => formatArrayBody [] indent
    | .str s => dq s
    | .null => "null"
    | .bool b => if b then "true" else "false"
    | .int n => Int.repr n
    | .float f => floatRepr f

/-- formatObject applied to an explicit enumeration of the object's
members: Go's `for k, v := range obj` visits a map in an unspecified
(runtime-randomized) order, so any permutation of the members is a
possible enumeration; the formatted text is determined only once that
enumeration is fixed. -/
def formatGoMapEnum (fuel : Nat) (enum : List (String × GoVal)) (indent : String) : String :=
  formatObjectBody (enum.map fun kv => (kv.1, formatJSONF fuel kv.2 (indent ++ "  "))) indent

/-- Value-shape discriminators used to state parseNumber's dispatch rule:
the float branch produces a float value or (on conversion failure) null,
the integer branch an integer value or null. -/
def isFloatOrNull : GoVal → Bool
  | .float _ => true
  | .null => true
  | _ => false

def isIntOrNull : GoVal → Bool
  | .int _ => true
  | .null => true
  | _ => false

/-- The input of the repository's linter test TestLintSimpleObject, and the
members of its value tree in insertion order. -/
def lintInput : String := "\x7b\"name\": \"John\", \"age\": 30, \"isStudent\": false\x7d"

def lintEntries : List (String × GoVal) :=
  [("name", .str "John"), ("age", .int 30), ("isStudent", .bool false)]

/-- Parser states whose current token is a number token, used to
instantiate the dispatch theorem for parseNumber. -/
def pFloatSample : Parser := parserNew (lexerNew "1.5")

def pIntSample : Parser := parserNew (lexerNew "30")

/-- C1, counterexample: on the input with the malformed number 1.2.3 the
parser finishes with a NON-empty diagnostics list and a NON-nil tree, so a
non-empty diagnostics list does not imply a nil result and a
numeric-conversion error does not abort the enclosing object's parse. -/
theorem c1_counterexample :
    (runParse "\x7b\"a\": 1.2.3\x7d").2 ≠ [] ∧
    (runParse "\x7b\"a\": 1.2.3\x7d").1.isSome = true :=
  ⟨by decide, rfl⟩

/-- C1, amended: a structural or lexical-semantic error aborts the
enclosing container's parse (second conjunct: an illegal value token makes
Parse return nil with the unexpected-token diagnostic), but a
numeric-conversion failure only appends a diagnostic and stores the
untyped nil (JSON null) in the slot and parsing continues, so Parse can
return a non-nil tree together with non-empty diagnostics (first
conjunct). -/
theorem c1_numeric_error_keeps_tree :
    runParse "\x7b\"a\": 1.2.3\x7d"
      = (some [("a", GoVal.null)],
         ["could not parse \"1.2.3\" as float at line 1, column 12"]) ∧
    runParse "\x7b\"a\": %\x7d" = (none, ["unexpected token '%' at line 1, column 7"]) :=
  ⟨rfl, rfl⟩

/-- C2, counterexample: the identifier token scanned from input true starts
at line 1, column 1 (the position of the lexer right after NewLexer), yet
the emitted token records column 5, the position after the matched text —
not the position of the token's first character. -/
theorem c2_counterexample :
    (nextTokenL (lexerNew "true")).1.value = "true" ∧
    (lexerNew "true").line = 1 ∧ (lexerNew "true").column = 1 ∧
    (nextTokenL (lexerNew "true")).1.line = 1 ∧
    (nextTokenL (lexerNew "true")).1.column = 5 ∧
    (nextTokenL (lexerNew "true")).1.column ≠ 1 := by
  decide

/-- C2, amended: single-character structural tokens, the EOF token and the
illegal-character token record the position of the token's first
character, but the multi-character tokens record the position the lexer
reached after matching: a string token records its closing quote's
position, and number and identifier tokens record the position of the
first character after the matched text. -/
theorem c2_token_positions :
    (nextTokenL (lexerNew ":")).1 = ⟨.NAME_SEPARATOR, ":", 1, 1⟩ ∧
    (nextTokenL (lexerNew "%")).1 = ⟨.ILLEGAL, "%", 1, 1⟩ ∧
    (nextTokenL (lexerNew "")).1 = ⟨.EOF, "", 1, 1⟩ ∧
    (nextTokenL (lexerNew "\"ab\"x")).1 = ⟨.STRING, "ab", 1, 4⟩ ∧
    (nextTokenL (lexerNew "12 ")).1 = ⟨.NUMBER, "12", 1, 3⟩ ∧
    (nextTokenL (lexerNew "null")).1 = ⟨.NULL, "null", 1, 5⟩ :=
  ⟨rfl, rfl, rfl, rfl, rfl, rfl⟩

/-- C3: evaluating the lexer at the failing input shows that a double quote
preceded by a backslash DOES terminate the string literal, contradicting
the claim (and readString's own doc comment about handling escaped
quotes): scanning the 6-character input consisting of quote, a, backslash,
quote, b, quote yields a string token whose text is just the two
characters a-backslash, and the following b is then lexed as a separate
(illegal) identifier token. -/
theorem c3_escaped_quote_terminates :
    (nextTokenL (lexerNew "\"a\\\"b\"")).1 = ⟨.STRING, "a\\", 1, 4⟩ ∧
    (nextTokenL (lexerNew "\"a\\\"b\"")).1.value ≠ "a\\\"b" ∧
    (nextTokenL (nextTokenL (lexerNew "\"a\\\"b\"")).2).1 = ⟨.ILLEGAL, "b", 1, 6⟩ := by
  refine ⟨rfl, by decide, rfl⟩

/-- C4, counterexample: on the token stream of input [1, whose closing
bracket never appears, parseArray does return nil — but WITH an appended
diagnostic, refuting the claimed silent (diagnostic-free) failure. -/
theorem c4_counterexample :
    (parseArrayF 64 (parserNew (lexerNew "[1"))).2 = none ∧
    (parseArrayF 64 (parserNew (lexerNew "[1"))).1.errors ≠ [] :=
  ⟨rfl, by decide⟩

/-- C4, amended: when the closing bracket is missing the array loop cannot
exit (its only exit condition is an end-array token), so parseValue is
eventually called on the EOF token and appends an unexpected-token
diagnostic before parseArray returns nil; the bare nil return after the
loop is unreachable.  parseObject, in contrast, detects EOF in its loop
condition and records its own missing-brace diagnostic. -/
theorem c4_missing_bracket_diagnostics :
    (parseArrayF 64 (parserNew (lexerNew "[1"))).2 = none ∧
    (parseArrayF 64 (parserNew (lexerNew "[1"))).1.errors
      = ["unexpected token '' at line 1, column 3"] ∧
    runParse "\x7b\"a\": 1" = (none, ["expected '\x7d' at line 1, column 8, got ''"]) :=
  ⟨rfl, rfl, rfl⟩

/-- C5: the parser stores the members of the linter-test document in
insertion order, the reversed member list is a permutation of them — hence
a possible enumeration of the Go map, whose range order is unspecified —
and formatting under that enumeration differs from formatting in insertion
order, so the formatter does not render object keys in insertion order for
every permitted execution. -/
theorem c5_map_order_not_insertion :
    runParse lintInput = (some lintEntries, []) ∧
    List.Perm lintEntries.reverse lintEntries ∧
    formatGoMapEnum 8 lintEntries.reverse "" ≠ formatGoMapEnum 8 lintEntries "" :=
  ⟨rfl, List.reverse_perm lintEntries, by decide⟩

/-- C6: for every parser state, if the current (number) token's text
contains a dot or e/E then parseNumber produces the float variant (or null
on conversion failure), otherwise the 64-bit integer variant (or null);
and concretely the document member -3.5e+5 parses to the float value
-350000 (exact decimal (-350000, 0)) while 30 parses to the integer 30. -/
theorem c6_number_dispatch :
    (∀ p : Parser,
      (hasFloatMarker p.curToken.value = true → isFloatOrNull (parseNumberF p).2 = true) ∧
      (hasFloatMarker p.curToken.value = false → isIntOrNull (parseNumberF p).2 = true)) ∧
    runParse "\x7b\"value\": -3.5e+5\x7d" = (some [("value", GoVal.float (-350000, 0))], []) ∧
    runParse "\x7b\"age\": 30\x7d" = (some [("age", GoVal.int 30)], []) := by
  refine ⟨fun p => ⟨fun h => ?_, fun h => ?_⟩, rfl, rfl⟩
  · simp only [parseNumberF, h, if_true]
    cases hf : goParseFloat p.curToken.value <;> simp [hf, isFloatOrNull]
  · simp only [parseNumberF, h, Bool.false_eq_true, if_false]
    cases hf : goParseInt p.curToken.value <;> simp [hf, isIntOrNull]

/-- C6, witness: the dispatch theorem instantiated at concrete parser
states whose current tokens are the number tokens 1.5 and 30. -/
theorem c6_number_dispatch_witness :
    isFloatOrNull (parseNumberF pFloatSample).2 = true ∧
    isIntOrNull (parseNumberF pIntSample).2 = true :=
  ⟨(c6_number_dispatch.1 pFloatSample).1 (by decide),
   (c6_number_dispatch.1 pIntSample).2 (by decide)⟩

/-- C7: the trailing-comma document yields nil and exactly one diagnostic,
referencing No-comma-before-brace at line 1, column 16 — and column 16 is
the comma's 1-based position in the (single-line) input: character index
15 holds the comma, of 17 characters in total. -/
theorem c7_trailing_comma :
    runParse "\x7b\"key\": \"value\",\x7d"
      = (none, ["No ',' before '\x7d' at line 1, column 16"]) ∧
    ("\x7b\"key\": \"value\",\x7d").data.get? 15 = some ',' ∧
    ("\x7b\"key\": \"value\",\x7d").data.length = 17 :=
  ⟨rfl, rfl, rfl⟩

/-- C8: parsing the empty input returns nil with exactly one diagnostic
whose text is exactly: expected brace at line 1, column 1, got
empty-quotes. -/
theorem c8_empty_input :
    runParse "" = (none, ["expected '\x7b' at line 1, column 1, got ''"]) :=
  rfl

/-- C9: an object member with the empty-string key (the well-formed
document containing only the member with empty key and value 1) makes
Parse return nil while the diagnostics list stays empty — the silent
rejection caused by the empty key coinciding with parseObjectKey's error
signal. -/
theorem c9_empty_key_silent_nil :
    runParse "\x7b\"\": 1\x7d" = (none, []) :=
  rfl

/-- C10: adjacent object members and adjacent array elements without a
separating comma parse successfully with zero diagnostics and produce
exactly the value tree of the comma-separated input. -/
theorem c10_missing_commas_accepted :
    runParse "\x7b\"a\": 1 \"b\": 2\x7d" = (some [("a", GoVal.int 1), ("b", GoVal.int 2)], []) ∧
    runParse "\x7b\"a\": 1, \"b\": 2\x7d" = (some [("a", GoVal.int 1), ("b", GoVal.int 2)], []) ∧
    runParse "\x7b\"a\": 1 \"b\": 2\x7d" = runParse "\x7b\"a\": 1, \"b\": 2\x7d" ∧
    runParse "\x7b\"k\": [1 2]\x7d"
      = (some [("k", GoVal.arr [GoVal.int 1, GoVal.int 2])], []) ∧
    runParse "\x7b\"k\": [1, 2]\x7d"
      = (some [("k", GoVal.arr [GoVal.int 1, GoVal.int 2])], []) ∧
    runParse "\x7b\"k\": [1 2]\x7d" = runParse "\x7b\"k\": [1, 2]\x7d" := by
  have h1 : runParse "\x7b\"a\": 1 \"b\": 2\x7d"
      = (some [("a", GoVal.int 1), ("b", GoVal.int 2)], []) := rfl
  have h2 : runParse "\x7b\"a\": 1, \"b\": 2\x7d"
      = (some [("a", GoVal.int 1), ("b", GoVal.int 2)], []) := rfl
  have h3 : runParse "\x7b\"k\": [1 2]\x7d"
      = (some [("k", GoVal.arr [GoVal.int 1, GoVal.int 2])], []) := rfl
  have h4 : runParse "\x7b\"k\": [1, 2]\x7d"
      = (some [("k", GoVal.arr [GoVal.int 1, GoVal.int 2])], []) := rfl
  exact ⟨h1, h2, h1.trans h2.symm, h3, h4, h3.trans h4.symm⟩

end Gojson
